import Mathlib

/-!
Verification of the ritmex-bot order-lifecycle / risk core against its
natural-language specification.

The development shallowly embeds the TypeScript sources:
  * `src/core/lib/position-reconciler.ts` (orphan-position reconciler),
  * `src/strategy/offset-maker-engine.ts` (the Offset-Maker control loop),
  * `src/utils/pnl.ts` (side-aware PnL),
as executable Lean definitions over `ℚ`.  JavaScript numbers are modelled by
rationals; a value that may be `null` / `undefined` / `NaN` (i.e. fails
`Number.isFinite`) is modelled by `Option ℚ`.  Asynchronous exchange calls are
modelled by the list of requests (`Effect`s) the engine issues, with the
success of fallible calls supplied as explicit boolean inputs.
-/

/-- Order side, mirroring the TypeScript union `"BUY" | "SELL"`. -/
inductive Side where
  | BUY
  | SELL
deriving DecidableEq, Repr

/-- Canonical order types used by the engine.  The source stores the type as a
string and uppercases before comparing; exchange payloads use these canonical
uppercase forms, so we model the type as an enumeration. -/
inductive OrderType where
  | LIMIT
  | MARKET
  | STOP_MARKET
  | TRAILING_STOP_MARKET
  | STOP
deriving DecidableEq, Repr

/-- Order status values from the exchange.  The source tests statuses with
substring checks (`includes("FILLED")` etc.); the helpers below reproduce
those checks on the canonical forms. -/
inductive OrderStatus where
  | NEW
  | PARTIALLY_FILLED
  | FILLED
  | CANCELED
  | EXPIRED
  | REJECTED
deriving DecidableEq, Repr

/-- Whether the canonical status string contains the substring `FILLED`
(true for both `FILLED` and `PARTIALLY_FILLED`). -/
def statusHasFilled : OrderStatus → Bool
  | .FILLED => true
  | .PARTIALLY_FILLED => true
  | _ => false

/-- Whether the canonical status string contains the substring `CANCELED`. -/
def statusHasCanceled : OrderStatus → Bool
  | .CANCELED => true
  | _ => false

/-- Whether the canonical type string contains the substring `STOP`. -/
def typeHasStop : OrderType → Bool
  | .STOP_MARKET => true
  | .TRAILING_STOP_MARKET => true
  | .STOP => true
  | _ => false

/-- Embedded `AsterOrder`.  `stopPrice` is `none` when the field is missing or
not a finite number (`Number(o.stopPrice)` would be `NaN`). -/
structure AsterOrder where
  orderId : Nat
  side : Side
  otype : OrderType
  status : OrderStatus
  price : ℚ
  origQty : ℚ
  stopPrice : Option ℚ
  reduceOnly : Bool
  updateTime : Nat
deriving DecidableEq, Repr

/-- Embedded `PositionSnapshot` from `src/utils/strategy.ts`. -/
structure PositionSnapshot where
  positionAmt : ℚ
  entryPrice : ℚ
  markPrice : Option ℚ
  unrealizedProfit : ℚ
deriving DecidableEq, Repr

/-- Flat-position tolerance `EPS = 1e-5`, shared by the reconciler and the
engine. -/
def EPS : ℚ := 1 / 100000

/-- Positive-stop-price test from the sources:
`Number.isFinite(Number(o.stopPrice)) && Number(o.stopPrice) > 0`. -/
def hasPositiveStopPrice (o : AsterOrder) : Bool :=
  match o.stopPrice with
  | some s => decide (0 < s)
  | none => false

/-! ## `src/utils/pnl.ts` -/

/-- Embedding of `computePositionPnl`.  `bestBid` / `bestAsk` are `none` when
the argument is missing or not finite; the JS check
`Number.isFinite(bestBid) && Number.isFinite(bestAsk) && bestBid === bestAsk`
becomes `bestBid = bestAsk` on `some` values. -/
def computePositionPnl (position : PositionSnapshot)
    (bestBid bestAsk : Option ℚ) : ℚ :=
  let priceForPnl : Option ℚ :=
    if bestBid.isSome ∧ bestAsk.isSome ∧ bestBid = bestAsk then bestBid
    else if 0 < position.positionAmt then bestBid else bestAsk
  match priceForPnl with
  | none => 0
  | some p =>
      if 0 < position.positionAmt then
        (p - position.entryPrice) * |position.positionAmt|
      else
        (position.entryPrice - p) * |position.positionAmt|

/-! ## Price formatting

`formatPriceToString` lives in `src/utils/math.ts`, which is not part of the
provided sources.  Modelled from the spec: prices are "serialized to strings
after rounding to tick"; the callers pass a decimal count
`max(0, floor(log10(1 / max(priceTick, 1e-9))))`, so the model rounds the
rational to that many decimal digits (round to nearest, halves away from
zero as `Number.prototype.toFixed` does for in-range values). -/

/-- Largest `d ≤ fuel` with `10^d * t ≤ 1`, or 0 when there is none.  For
`0 < t` the test is antitone in `d`, so this is
`max 0 (Math.floor(Math.log10(1 / t)))` once `1/t ≤ 10^fuel`. -/
def decimalsAux : Nat → ℚ → Nat
  | 0, _ => 0
  | n + 1, t => if (10 : ℚ) ^ (n + 1) * t ≤ 1 then n + 1 else decimalsAux n t

/-- Decimal digit count used by the engine for a given price tick:
`max(0, Math.floor(Math.log10(1 / max(priceTick, 1e-9))))`. -/
def priceDecimalsOf (priceTick : ℚ) : Nat :=
  decimalsAux 9 (max priceTick (1 / 1000000000))

/-- Modelled from the spec: `formatPriceToString` rounds a price to `d`
decimal digits (the serialized string is read back as the rounded rational). -/
def formatPriceToString (x : ℚ) (d : Nat) : ℚ :=
  (round (x * (10 : ℚ) ^ d) : ℤ) / (10 : ℚ) ^ d

/-! ## `src/core/lib/position-reconciler.ts` -/

/-- Embedded `ReconcilePrices`; each field is `none` when the input is
missing or not a finite number. -/
structure ReconcilePrices where
  topBid : Option ℚ
  topAsk : Option ℚ
  lastPrice : Option ℚ
deriving DecidableEq, Repr

/-- Embedded `ReconcileOptions`. -/
structure ReconcileOptions where
  priceTick : ℚ
  qtyStep : ℚ
  strictLimitOnly : Bool
  maxCloseSlippagePct : ℚ
deriving DecidableEq, Repr

/-- Embedding of `hasClosingProtection`: some open order on the closing side
is reduce-only, of (uppercased) type exactly `STOP_MARKET`, or has a positive
finite stop price. -/
def hasClosingProtection (openOrders : List AsterOrder) (closeSide : Side) : Bool :=
  openOrders.any fun o =>
    o.side == closeSide &&
      (o.reduceOnly || o.otype == OrderType.STOP_MARKET || hasPositiveStopPrice o)

/-- Spec notion of a stop-like order, for comparison with the source's
protection test.  Follows the spec's words (§3 and glossary): "stop-like ⇔
`stopPrice > 0` OR `type` contains STOP". -/
def specStopLike (o : AsterOrder) : Bool :=
  hasPositiveStopPrice o || typeHasStop o.otype

/-- Embedding of `buildClosePrice`: SELL prefers `topAsk`, BUY prefers
`topBid`, both falling back to `lastPrice`; `none` when no finite price is
available. -/
def buildClosePrice (side : Side) (prices : ReconcilePrices) (priceTick : ℚ) :
    Option ℚ :=
  let d := priceDecimalsOf priceTick
  match side with
  | .SELL =>
      match prices.topAsk with
      | some a => some (formatPriceToString a d)
      | none => prices.lastPrice.map (fun l => formatPriceToString l d)
  | .BUY =>
      match prices.topBid with
      | some b => some (formatPriceToString b d)
      | none => prices.lastPrice.map (fun l => formatPriceToString l d)

/-- A request submitted to `placeOrder`.  Modelled from the spec for the
order-coordinator (not in the provided sources): `placeOrder` submits a LIMIT
order with the given side, price, quantity, reduce-only flag and optional
time-in-force. -/
structure PlacedRequest where
  side : Side
  otype : OrderType
  price : ℚ
  quantity : ℚ
  reduceOnly : Bool
  timeInForce : Option String
deriving DecidableEq, Repr

/-- Result of `reconcileOrphanedPosition` together with the request it sent to
the exchange, if any (`none` when `placeOrder` was never invoked). -/
structure ReconcileResult where
  tookAction : Bool
  sentOrder : Option PlacedRequest
deriving DecidableEq, Repr

/-- Closing side for a position: SELL when long, BUY otherwise. -/
def closeSideOf (position : PositionSnapshot) : Side :=
  if 0 < position.positionAmt then .SELL else .BUY

/-- Embedding of `reconcileOrphanedPosition`.  `ioc` is the caller flag
(`undefined` ↦ `false`); `placeOk` models whether the awaited `placeOrder`
call succeeds (on failure the source catches, logs, and reports
`tookAction=false`). -/
def reconcileOrphanedPosition (position : PositionSnapshot)
    (openOrders : List AsterOrder) (prices : ReconcilePrices)
    (opts : ReconcileOptions) (ioc : Bool) (placeOk : Bool) : ReconcileResult :=
  if |position.positionAmt| < EPS then ⟨false, none⟩
  else
    let closeSide := closeSideOf position
    if hasClosingProtection openOrders closeSide then ⟨false, none⟩
    else
      match buildClosePrice closeSide prices opts.priceTick with
      | none => ⟨false, none⟩
      | some price =>
          let req : PlacedRequest :=
            ⟨closeSide, .LIMIT, price, |position.positionAmt|, true,
              if ioc || opts.strictLimitOnly then some "IOC" else none⟩
          if placeOk then ⟨true, some req⟩ else ⟨false, some req⟩

/-- Open order as it appears in the next orders snapshot after a
`reconcileOrphanedPosition` placement succeeded (shape taken from the mock
adapter in the repository's reconciler test: status NEW, stop price "0"). -/
def orderFromRequest (req : PlacedRequest) (oid : Nat) (t : Nat) : AsterOrder :=
  ⟨oid, req.side, req.otype, .NEW, req.price, req.quantity, some 0,
    req.reduceOnly, t⟩

/-! ## `src/strategy/offset-maker-engine.ts` -/

/-- Order-book snapshot: price/quantity levels, best first. -/
structure Depth where
  bids : List (ℚ × ℚ)
  asks : List (ℚ × ℚ)
deriving DecidableEq, Repr

/-- Engine configuration (`MakerConfig` fields the engine reads).
`repriceDwellMs` and `minRepriceTicks` are stored after the constructor's
defaulting logic. -/
structure EngineConfig where
  priceTick : ℚ
  qtyStep : ℚ
  tradeAmount : ℚ
  volumeBoost : ℚ
  bidOffset : ℚ
  askOffset : ℚ
  lossLimit : ℚ
  maxCloseSlippagePct : ℚ
  repriceDwellMs : ℚ
  minRepriceTicks : ℚ
deriving DecidableEq, Repr

/-- Engine state the tick reads.  `accountSnapshot` is collapsed to the
position for the configured symbol (modelled from the spec: `getPosition`
extracts that position from the account snapshot); `tickerSnapshot` holds the
last price when the ticker feed has delivered. -/
structure EngineState where
  accountSnapshot : Option PositionSnapshot
  depthSnapshot : Option Depth
  tickerSnapshot : Option ℚ
  openOrders : List AsterOrder
  pendingCancel : List Nat
  initialOrderSnapshotReady : Bool
  initialOrderResetDone : Bool
  lastEntryBuy : Option (ℚ × ℚ)
  lastEntrySell : Option (ℚ × ℚ)
  postCloseCooldownUntil : ℚ
deriving DecidableEq, Repr

/-- Requests the engine sends to the exchange during a tick. -/
inductive Effect where
  | placeOrderE (side : Side) (price : ℚ) (qty : ℚ) (reduceOnly : Bool)
      (tif : Option String)
  | placeStopE (side : Side) (stopPrice : ℚ) (qty : ℚ)
  | marketCloseE (side : Side) (qty : ℚ) (expected : Option ℚ) (maxPct : ℚ)
  | cancelOrderE (orderId : Nat)
  | cancelAllE
  | registerRateLimitE
  | logE (tag : String)
deriving DecidableEq, Repr

/-- Embedding of `isReady`: `Boolean(this.accountSnapshot && this.depthSnapshot)`.
This is also the `ready` field of every emitted snapshot. -/
def isReady (st : EngineState) : Bool :=
  st.accountSnapshot.isSome && st.depthSnapshot.isSome

/-- Embedding of `getPosition(this.accountSnapshot, symbol)`; modelled from
the spec: yields the account's position for the symbol, or a flat default
when the snapshot is absent. -/
def getPosition (st : EngineState) : PositionSnapshot :=
  st.accountSnapshot.getD ⟨0, 0, none, 0⟩

/-- Embedding of `getTopPrices` (modelled from the spec: top of book is the
first bid / ask level of the depth snapshot). -/
def getTopPrices (d : Option Depth) : Option ℚ × Option ℚ :=
  (d.bind (fun x => x.bids.head?.map Prod.fst),
   d.bind (fun x => x.asks.head?.map Prod.fst))

/-- Sum of the sizes of the first `n` levels. -/
def sumTopLevels (levels : List (ℚ × ℚ)) (n : Nat) : ℚ :=
  ((levels.take n).map Prod.snd).sum

/-- Result of `computeDepthStats`. -/
structure DepthStats where
  buySum : ℚ
  sellSum : ℚ
  skipBuySide : Bool
  skipSellSide : Bool
deriving DecidableEq, Repr

/-- Modelled from the spec: `computeDepthStats(depth, 10, 3)` sums the sizes
of the top ten levels per side and suppresses the BUY side when
`sellSum ≥ 3·buySum` (symmetrically for SELL). -/
def computeDepthStats (d : Depth) (levels : Nat) (thresh : ℚ) : DepthStats :=
  let buySum := sumTopLevels d.bids levels
  let sellSum := sumTopLevels d.asks levels
  ⟨buySum, sellSum, decide (thresh * buySum ≤ sellSum),
    decide (thresh * sellSum ≤ buySum)⟩

/-- Entry-price-present test used throughout the engine:
`Number.isFinite(entryPrice) && Math.abs(entryPrice) > 1e-8`. -/
def hasEntryPrice (position : PositionSnapshot) : Bool :=
  decide ((1 : ℚ) / 100000000 < |position.entryPrice|)

/-- Embedding of `flushOrders`: request a cancel for every open order not
already pending cancellation. -/
def flushEffects (st : EngineState) : List Effect :=
  (st.openOrders.filter (fun o => !st.pendingCancel.contains o.orderId)).map
    (fun o => .cancelOrderE o.orderId)

/-- Expected-price guard argument of the rate-limit market close: the
tick-formatted top-of-book price on the closing side, when available. -/
def rateLimitCloseExpected (cfg : EngineConfig) (st : EngineState)
    (side : Side) : Option ℚ :=
  let tops := getTopPrices st.depthSnapshot
  let d := priceDecimalsOf cfg.priceTick
  match side with
  | .SELL => tops.2.map (fun a => formatPriceToString a d)
  | .BUY => tops.1.map (fun b => formatPriceToString b d)

/-- Embedding of `enforceRateLimitStop`: with a non-flat position, flush
working orders and request a market close on the closing side guarded by
`maxCloseSlippagePct`, with the top-of-book closing price as the expected
price when available. -/
def enforceRateLimitStop (cfg : EngineConfig) (st : EngineState) : List Effect :=
  let position := getPosition st
  if |position.positionAmt| < EPS then []
  else
    let side := closeSideOf position
    flushEffects st ++
      [.marketCloseE side |position.positionAmt|
        (rateLimitCloseExpected cfg st side) cfg.maxCloseSlippagePct]

/-- Embedding of `findCurrentStop`: first open order on the stop side whose
type is `STOP_MARKET` / `TRAILING_STOP_MARKET` or whose stop price is
positive. -/
def findCurrentStop (openOrders : List AsterOrder) (stopSide : Side) :
    Option AsterOrder :=
  openOrders.find? fun o =>
    o.side == stopSide &&
      (o.otype == OrderType.STOP_MARKET ||
        o.otype == OrderType.TRAILING_STOP_MARKET || hasPositiveStopPrice o)

/-- Embedding of `tryReplaceStop`: cancel the current stop, attempt the new
stop, and on a failed attempt (`placeOk = false`) attempt to restore the
previous stop price when it is recorded and strictly on the correct side of
`lastPrice`.  Every `placeStopE` is a request issued to the coordinator. -/
def tryReplaceStop (side : Side) (currentOrder : AsterOrder)
    (nextStopPrice lastPrice quantity : ℚ) (placeOk : Bool) : List Effect :=
  if (side = .SELL ∧ lastPrice < nextStopPrice) ∨
      (side = .BUY ∧ nextStopPrice < lastPrice) then []
  else
    let cancelE : List Effect := [.cancelOrderE currentOrder.orderId]
    if placeOk then cancelE ++ [.placeStopE side nextStopPrice quantity]
    else
      match currentOrder.stopPrice with
      | none => cancelE ++ [.placeStopE side nextStopPrice quantity]
      | some existing =>
          if (side = .SELL ∧ lastPrice ≤ existing) ∨
              (side = .BUY ∧ existing ≤ lastPrice) then
            cancelE ++ [.placeStopE side nextStopPrice quantity]
          else
            cancelE ++ [.placeStopE side nextStopPrice quantity,
              .placeStopE side existing quantity]

/-- Embedding of `ensureProtectiveStop`.  `rawStop` stands for
`calcStopLossPrice(entry, |amt|, direction, lossLimit)` (the helper lives in
`src/utils/strategy.ts`, outside the provided sources; it enters here as an
explicit input).  `placeOk` models the success of the replace attempt. -/
def ensureProtectiveStop (cfg : EngineConfig) (openOrders : List AsterOrder)
    (position : PositionSnapshot) (lastPrice rawStop : ℚ) (placeOk : Bool) :
    List Effect :=
  if |position.positionAmt| < EPS then []
  else if !hasEntryPrice position then []
  else
    let stopSide := closeSideOf position
    let tick := max (1 / 1000000000) cfg.priceTick
    if (stopSide = .SELL ∧ ¬(rawStop ≤ lastPrice - tick)) ∨
        (stopSide = .BUY ∧ ¬(lastPrice + tick ≤ rawStop)) then []
    else
      match findCurrentStop openOrders stopSide with
      | none => [.placeStopE stopSide rawStop |position.positionAmt|]
      | some current =>
          match current.stopPrice with
          | none => []
          | some existing =>
              if (stopSide = .SELL ∧ existing + tick ≤ rawStop) ∨
                  (stopSide = .BUY ∧ rawStop ≤ existing - tick) then
                tryReplaceStop stopSide current rawStop lastPrice
                  |position.positionAmt| placeOk
              else []

/-- Embedded `DesiredOrder` (the engine stores the price as a pre-formatted
string; we keep the rational it denotes). -/
structure DesiredOrder where
  side : Side
  price : ℚ
  amount : ℚ
  reduceOnly : Bool
deriving DecidableEq, Repr

/-- Predicate for the open orders `syncOrders` hands to `makeOrderPlan`:
status contains none of `CLOSED` / `FILLED` / `CANCELED`, the order is not
stop-like, and its type does not contain `STOP`. -/
def planEligible (o : AsterOrder) : Bool :=
  !statusHasFilled o.status && !statusHasCanceled o.status &&
    !hasPositiveStopPrice o && !typeHasStop o.otype

/-- Last-entry record for a side (`this.lastEntryOrderBySide`): price and
placement timestamp. -/
def lastEntryFor (st : EngineState) : Side → Option (ℚ × ℚ)
  | .BUY => st.lastEntryBuy
  | .SELL => st.lastEntrySell

/-- Embedding of the reprice-suppression pass of `syncOrders` (lines
498–522): an entry-side desired order is pinned to the first existing
non-reduce-only open order on its side when the price moved fewer than
`minRepriceTicks` ticks or the last entry placement on that side is within
the dwell window. -/
def suppressReprices (cfg : EngineConfig) (st : EngineState)
    (availableOrders : List AsterOrder) (now : ℚ)
    (targets : List DesiredOrder) : List DesiredOrder :=
  targets.map fun t =>
    if t.reduceOnly then t
    else
      match availableOrders.find? (fun o => o.side == t.side && !o.reduceOnly) with
      | none => t
      | some existing =>
          let ticksDiff := |t.price - existing.price| / cfg.priceTick
          let recentPlaced := ((lastEntryFor st t.side).map Prod.snd).getD 0
          let withinDwell := now - recentPlaced < cfg.repriceDwellMs
          if ticksDiff < cfg.minRepriceTicks ∨ withinDwell then
            ⟨t.side, existing.price, t.amount, false⟩
          else t

/-- Modelled from the spec (§4.3): `makeOrderPlan` greedily matches each
desired order against at most one open order with the same
`(side, price, reduceOnly)` key whose quantity agrees within `qtyStep`;
unmatched opens are cancelled and unmatched desireds placed.  The qty
tolerance step is made an explicit parameter. -/
def makeOrderPlan (qtyStep : ℚ) (openOrders : List AsterOrder)
    (targets : List DesiredOrder) : List AsterOrder × List DesiredOrder :=
  let step := fun (acc : List AsterOrder × List DesiredOrder) (t : DesiredOrder) =>
    let (remaining, toPlace) := acc
    match remaining.find? (fun o =>
        o.side == t.side && o.price == t.price && o.reduceOnly == t.reduceOnly &&
          decide (|o.origQty - t.amount| ≤ qtyStep)) with
    | some o => (remaining.filter (fun x => x.orderId != o.orderId), toPlace)
    | none => (remaining, toPlace ++ [t])
  let res := targets.foldl step (openOrders, [])
  (res.1, res.2)

/-- Default quantity step `syncOrders` uses for placements (`qtyStep: 0.001`). -/
def defaultQtyStep : ℚ := 1 / 1000

/-- Embedding of `syncOrders` (lines 481–618) as the list of exchange
requests it issues.  `topAsk` is the current top ask used by the pre-bid
protective stop; `placeOk` models the success of each `placeOrder` call (on
failure the pre-bid stop and the entry-timestamp update are skipped). -/
def syncOrders (cfg : EngineConfig) (st : EngineState) (now : ℚ)
    (targets : List DesiredOrder) (topAsk : Option ℚ) (placeOk : Bool) :
    List Effect :=
  let availableOrders :=
    st.openOrders.filter (fun o => !st.pendingCancel.contains o.orderId)
  let openForPlan := availableOrders.filter planEligible
  let adjustedTargets := suppressReprices cfg st availableOrders now targets
  let plan := makeOrderPlan defaultQtyStep openForPlan adjustedTargets
  let cancels := plan.1.map (fun o => Effect.cancelOrderE o.orderId)
  let places := (plan.2.map fun t =>
    if t.amount < EPS then []
    else
      let placed : List Effect := [.placeOrderE t.side t.price t.amount t.reduceOnly none]
      if placeOk ∧ ¬t.reduceOnly ∧ t.side = .BUY ∧ cfg.bidOffset = 0 ∧
          cfg.askOffset = 0 then
        match topAsk with
        | some a => placed ++ [.placeStopE .SELL a t.amount]
        | none => placed
      else placed).flatten
  cancels ++ places

/-- Expected-price guard argument of the imbalance market close: the raw
best price on the closing side (`Number(closeSidePrice) || null` maps the
missing case and an exact 0 to null). -/
def imbalanceExpectedPrice (st : EngineState) (side : Side) : Option ℚ :=
  let px := match side with
    | .SELL => (getTopPrices st.depthSnapshot).1
    | .BUY => (getTopPrices st.depthSnapshot).2
  match px with
  | some p => if p = 0 then none else some p
  | none => none

/-- Embedding of `handleImbalanceExit` (lines 432–479): with a non-flat
position, a long position exits when `buySum === 0 || buySum * 6 < sellSum`
(symmetrically for a short); the handler flushes working orders and requests
a market close of the whole position guarded by `maxCloseSlippagePct`.
Returns `none` when the handler does not take over the tick. -/
def handleImbalanceExit (cfg : EngineConfig) (st : EngineState)
    (position : PositionSnapshot) (buySum sellSum : ℚ) :
    Option (List Effect) :=
  if |position.positionAmt| < EPS then none
  else
    let longExitRequired :=
      0 < position.positionAmt ∧ (buySum = 0 ∨ buySum * 6 < sellSum)
    let shortExitRequired :=
      position.positionAmt < 0 ∧ (sellSum = 0 ∨ sellSum * 6 < buySum)
    if ¬longExitRequired ∧ ¬shortExitRequired then none
    else
      let side := closeSideOf position
      some (flushEffects st ++
        [.marketCloseE side |position.positionAmt| (imbalanceExpectedPrice st side)
          cfg.maxCloseSlippagePct])

/-- Modelled from the spec: `calcStopLossPrice(entry, qty, direction,
lossLimit)` (the helper lives in `src/utils/strategy.ts`, outside the
provided sources) yields the price at which the position loses `lossLimit`
USDT: below entry for a long, above entry for a short. -/
def calcStopLossPrice (entry qty : ℚ) (isLong : Bool) (lossLimit : ℚ) : ℚ :=
  if qty ≤ 0 then entry
  else if isLong then entry - lossLimit / qty else entry + lossLimit / qty

/-- Modelled from the spec: `shouldStopLoss(position, bid, ask, lossLimit)`
(from `src/utils/risk.ts`, outside the provided sources) triggers when the
side-aware PnL has fallen below `-lossLimit`. -/
def shouldStopLoss (position : PositionSnapshot) (bid ask lossLimit : ℚ) : Bool :=
  decide (computePositionPnl position (some bid) (some ask) < -lossLimit)

/-- Embedding of `checkRisk` (lines 620–668): with a non-flat position and a
synchronized entry price, when the stop-loss criterion fires the engine
flushes working orders and requests a market close guarded by
`maxCloseSlippagePct` with the closing-side quote (or none if zero) as the
expected price. -/
def checkRisk (cfg : EngineConfig) (st : EngineState)
    (position : PositionSnapshot) (bidPrice askPrice : ℚ) : List Effect :=
  if |position.positionAmt| < EPS then []
  else if !hasEntryPrice position then []
  else if shouldStopLoss position bidPrice askPrice cfg.lossLimit then
    let px := if 0 < position.positionAmt then bidPrice else askPrice
    let expected : Option ℚ := if px = 0 then none else some px
    flushEffects st ++
      [.marketCloseE (closeSideOf position) |position.positionAmt| expected
        cfg.maxCloseSlippagePct]
  else []

/-- Embedding of `replaceStopExact` (lines 862–909): like `tryReplaceStop`
but with no restore attempt on failure. -/
def replaceStopExact (side : Side) (currentOrder : AsterOrder)
    (nextStopPrice lastPrice quantity : ℚ) : List Effect :=
  if (side = .SELL ∧ lastPrice < nextStopPrice) ∨
      (side = .BUY ∧ nextStopPrice < lastPrice) then []
  else
    [.cancelOrderE currentOrder.orderId, .placeStopE side nextStopPrice quantity]

/-- Embedding of `refreshStopToQuoteIfOpen` (lines 843–860): refresh an
existing stop to the current closing-side quote when it differs by at least
one tick. -/
def refreshStopToQuoteIfOpen (cfg : EngineConfig) (st : EngineState)
    (position : PositionSnapshot) (closeBidPrice closeAskPrice : ℚ) :
    List Effect :=
  if |position.positionAmt| < EPS then []
  else if !hasEntryPrice position then []
  else
    let stopSide := closeSideOf position
    match findCurrentStop st.openOrders stopSide with
    | none => []
    | some current =>
        let lastPrice := match stopSide with
          | .SELL => closeBidPrice
          | .BUY => closeAskPrice
        let tick := max (1 / 1000000000) cfg.priceTick
        let desired :=
          formatPriceToString lastPrice (priceDecimalsOf cfg.priceTick)
        match current.stopPrice with
        | none => []
        | some existing =>
            if |desired - existing| < tick then []
            else replaceStopExact stopSide current desired lastPrice
              |position.positionAmt|

/-- Embedding of `ensureStartupOrderReset` (lines 392–419): `(true, effs)`
when the tick may proceed.  `cancelFails` models a non-unknown-order failure
of `cancelAllOrders` (an unknown-order failure counts as success). -/
def startupReset (st : EngineState) (cancelFails : Bool) : Bool × List Effect :=
  if st.initialOrderResetDone then (true, [])
  else if !st.initialOrderSnapshotReady then (false, [])
  else if st.openOrders.isEmpty then (true, [])
  else (!cancelFails, [.cancelAllE])

/-- Rate-limit controller decision for the cycle (`beforeCycle`), supplied as
an input: the controller itself lives in `src/core/lib/rate-limit.ts`,
outside the provided sources. -/
inductive RLDecision where
  | run
  | skipCycle
  | paused
deriving DecidableEq, Repr

/-- Kind of an error raised inside the tick body, as classified by
`isRateLimitError`. -/
inductive ErrKind where
  | rateLimit
  | other
deriving DecidableEq, Repr

/-- How the tick terminated; `raised` would mean an exception escaped
`tick` (the embedding shows this never happens). -/
inductive TickTermination where
  | normal
  | raised (k : ErrKind)
deriving DecidableEq, Repr

/-- Inputs of one tick that come from the environment: the wall clock, the
rate-limit controller's decision and entry gate, the success of each
fallible exchange call, and an optional error injected into the body after a
prefix of its requests (modelling an exception thrown at any point of the
guarded `try` block). -/
structure TickInput where
  now : ℚ
  rlDecision : RLDecision
  blockEntries : Bool
  startupCancelFails : Bool
  placeOk : Bool
  replacePlaceOk : Bool
  inject : Option (Nat × ErrKind)
deriving DecidableEq, Repr

/-- Main trading phase of the tick (lines 269–336), reached once the guards
pass: read top of book, evaluate depth, possibly run the imbalance exit, and
otherwise derive desired quotes, reconcile them, and maintain the protective
stop and risk checks. -/
def tickMain (cfg : EngineConfig) (st : EngineState) (inp : TickInput) :
    List Effect :=
  match st.depthSnapshot with
  | none => []
  | some depth =>
      match getTopPrices (some depth) with
      | (none, _) => []
      | (_, none) => []
      | (some topBid, some topAsk) =>
          let stats := computeDepthStats depth 10 3
          let position := getPosition st
          match handleImbalanceExit cfg st position stats.buySum stats.sellSum with
          | some effs => effs
          | none =>
              let d := priceDecimalsOf cfg.priceTick
              let closeBidPrice := formatPriceToString topBid d
              let closeAskPrice := formatPriceToString topAsk d
              let bidPrice := formatPriceToString (topBid - cfg.bidOffset) d
              let askPrice := formatPriceToString (topAsk + cfg.askOffset) d
              let absPosition := |position.positionAmt|
              let postCloseActive := inp.now < st.postCloseCooldownUntil
              let canEnter := ¬inp.blockEntries ∧ ¬postCloseActive
              let boost := max 1 cfg.volumeBoost
              let desired : List DesiredOrder :=
                if absPosition < EPS then
                  (if ¬stats.skipBuySide ∧ canEnter then
                    [⟨.BUY, bidPrice, cfg.tradeAmount * boost, false⟩] else []) ++
                  (if ¬stats.skipSellSide ∧ canEnter then
                    [⟨.SELL, askPrice, cfg.tradeAmount * boost, false⟩] else [])
                else
                  let closeSide := closeSideOf position
                  let closePrice := match closeSide with
                    | .SELL => closeAskPrice
                    | .BUY => closeBidPrice
                  [⟨closeSide, closePrice, absPosition, true⟩]
              let syncEffs :=
                syncOrders cfg st inp.now desired (some topAsk) inp.placeOk
              let closeSidePx :=
                if 0 < position.positionAmt then closeBidPrice else closeAskPrice
              let rawStop := calcStopLossPrice position.entryPrice absPosition
                (0 < position.positionAmt) cfg.lossLimit
              let stopEffs := ensureProtectiveStop cfg st.openOrders position
                closeSidePx rawStop inp.replacePlaceOk
              let refreshEffs := refreshStopToQuoteIfOpen cfg st position
                closeBidPrice closeAskPrice
              let riskEffs := checkRisk cfg st position closeBidPrice closeAskPrice
              syncEffs ++ stopEffs ++ refreshEffs ++ riskEffs

/-- Embedding of `tick` (lines 247–351).  The `catch` of the source maps a
rate-limit error to `registerRateLimit` + `enforceRateLimitStop` + a warn
log and any other error to an error log; in both cases the tick returns
normally. -/
def tick (cfg : EngineConfig) (st : EngineState) (inp : TickInput) :
    TickTermination × List Effect :=
  match inp.rlDecision with
  | .paused => (.normal, [])
  | .skipCycle => (.normal, [])
  | .run =>
      if !isReady st then (.normal, [])
      else
        let (proceed, startEffs) := startupReset st inp.startupCancelFails
        if !proceed then (.normal, startEffs)
        else
          let body := startEffs ++ tickMain cfg st inp
          match inp.inject with
          | none => (.normal, body)
          | some (n, .rateLimit) =>
              (.normal, body.take n ++ [.registerRateLimitE] ++
                enforceRateLimitStop cfg st ++ [.logE "429"])
          | some (n, .other) =>
              (.normal, body.take n ++ [.logE "tick-error"])

/-! ## Claims -/

/-- Helper: every stop placement requested by `tryReplaceStop` is valid for
the side, provided the new stop is valid and any recorded previous stop is
at least one tick tighter-than-new on the correct side. -/
theorem tryReplaceStop_place_valid (side : Side) (current : AsterOrder)
    (next lastPrice qty tick : ℚ) (placeOk : Bool) (htick : 0 < tick)
    (hnext : (side = .SELL → next ≤ lastPrice - tick) ∧
      (side = .BUY → lastPrice + tick ≤ next))
    (hex : ∀ ex, current.stopPrice = some ex →
      (side = .SELL → ex + tick ≤ next) ∧ (side = .BUY → next ≤ ex - tick)) :
    ∀ s p q, Effect.placeStopE s p q ∈
        tryReplaceStop side current next lastPrice qty placeOk →
      s = side ∧ q = qty ∧ (side = .SELL → p ≤ lastPrice - tick) ∧
        (side = .BUY → lastPrice + tick ≤ p) := by
  intro s p q hmem
  unfold tryReplaceStop at hmem
  by_cases hinv : (side = .SELL ∧ lastPrice < next) ∨
      (side = .BUY ∧ next < lastPrice)
  · simp [hinv] at hmem
  rw [if_neg hinv] at hmem
  rcases placeOk with _ | _
  · simp only [Bool.false_eq_true, if_false] at hmem
    rcases hsp : current.stopPrice with _ | ex
    · rw [hsp] at hmem
      simp only [List.cons_append, List.nil_append, List.mem_cons,
        List.mem_singleton] at hmem
      rcases hmem with h | h | h
      · exact absurd h (by simp)
      · obtain ⟨hs, hp, hq⟩ := Effect.placeStopE.inj h.symm
        exact ⟨hs.symm, hq.symm, fun hS => hp ▸ hnext.1 (hs ▸ hS),
          fun hB => hp ▸ hnext.2 (hs ▸ hB)⟩
      · cases h
    · rw [hsp] at hmem
      simp only [List.cons_append, List.nil_append] at hmem
      by_cases hres : (side = .SELL ∧ lastPrice ≤ ex) ∨
          (side = .BUY ∧ ex ≤ lastPrice)
      · rw [if_pos hres] at hmem
        simp only [List.cons_append, List.nil_append, List.mem_cons,
          List.mem_singleton] at hmem
        rcases hmem with h | h | h
        · exact absurd h (by simp)
        · obtain ⟨hs, hp, hq⟩ := Effect.placeStopE.inj h.symm
          exact ⟨hs.symm, hq.symm, fun hS => hp ▸ hnext.1 (hs ▸ hS),
            fun hB => hp ▸ hnext.2 (hs ▸ hB)⟩
        · cases h
      · rw [if_neg hres] at hmem
        simp only [List.cons_append, List.nil_append, List.mem_cons,
          List.mem_singleton] at hmem
        rcases hmem with h | h | h | h
        · exact absurd h (by simp)
        · obtain ⟨hs, hp, hq⟩ := Effect.placeStopE.inj h.symm
          exact ⟨hs.symm, hq.symm, fun hS => hp ▸ hnext.1 (hs ▸ hS),
            fun hB => hp ▸ hnext.2 (hs ▸ hB)⟩
        · obtain ⟨hs, hp, hq⟩ := Effect.placeStopE.inj h.symm
          subst hs
          refine ⟨rfl, hq.symm, ?_, ?_⟩
          · intro hS
            have h1 := (hex ex hsp).1 hS
            have h2 := hnext.1 hS
            subst hp
            linarith
          · intro hB
            have h1 := (hex ex hsp).2 hB
            have h2 := hnext.2 hB
            subst hp
            linarith
        · cases h
  · simp only [if_true] at hmem
    simp only [List.cons_append, List.nil_append, List.mem_cons,
      List.mem_singleton] at hmem
    rcases hmem with h | h | h
    · exact absurd h (by simp)
    · obtain ⟨hs, hp, hq⟩ := Effect.placeStopE.inj h.symm
      exact ⟨hs.symm, hq.symm, fun hS => hp ▸ hnext.1 (hs ▸ hS),
        fun hB => hp ▸ hnext.2 (hs ▸ hB)⟩
    · cases h

/-- C4 counterexample: long position at entry 100, last price 100, tick 0.1,
current SELL stop at 150 — on the wrong side of the price, i.e. an invalid
placement — and a valid computed stop 95.  The claim requires a replacement
(current is on the wrong side of price); `ensureProtectiveStop` issues no
request at all, because it replaces only when the new stop is tighter by at
least one tick. -/
theorem ensureProtectiveStop_wrong_side_not_replaced_cex :
    findCurrentStop [⟨5, .SELL, .STOP_MARKET, .NEW, 0, 1, some 150, false, 0⟩]
      (closeSideOf ⟨1, 100, none, 0⟩) =
      some ⟨5, .SELL, .STOP_MARKET, .NEW, 0, 1, some 150, false, 0⟩ ∧
    ¬ ((150 : ℚ) ≤ 100 - 1/10) ∧
    ((95 : ℚ) ≤ 100 - 1/10) ∧
    ensureProtectiveStop ⟨1/10, 1/1000, 1/10, 1, 0, 0, 1, 5/100, 1500, 1⟩
      [⟨5, .SELL, .STOP_MARKET, .NEW, 0, 1, some 150, false, 0⟩]
      ⟨1, 100, none, 0⟩ 100 95 true = [] := by
  refine ⟨?_, by norm_num, by norm_num, ?_⟩
  · norm_num [findCurrentStop, closeSideOf, hasPositiveStopPrice]
  · norm_num [ensureProtectiveStop, findCurrentStop, closeSideOf,
      hasPositiveStopPrice, hasEntryPrice, EPS, abs_of_pos, max_def,
      tryReplaceStop]
    intro h1 h2 _
    exact absurd h2 h1

/-- C4 (amended): protective-stop maintenance only ever requests stops whose
price satisfies the validity condition (a SELL stop at most
`lastPrice − tick`, a BUY stop at least `lastPrice + tick`, where `tick` is
`max(1e-9, priceTick)`); when a current stop-like order exists on the
closing side it is replaced exactly when the new computed stop is tighter by
at least one tick — a current stop on the wrong side of the price does not
by itself trigger a replacement — and on a replace failure the previous
stop is re-placed (it is then necessarily still valid for the side). -/
theorem ensureProtectiveStop_validity_and_replace (cfg : EngineConfig)
    (openOrders : List AsterOrder) (position : PositionSnapshot)
    (lastPrice rawStop : ℚ) (placeOk : Bool) :
    (∀ s p q, Effect.placeStopE s p q ∈
        ensureProtectiveStop cfg openOrders position lastPrice rawStop placeOk →
      (s = .SELL → p ≤ lastPrice - max (1/1000000000) cfg.priceTick) ∧
      (s = .BUY → lastPrice + max (1/1000000000) cfg.priceTick ≤ p)) ∧
    (∀ current ex,
      findCurrentStop openOrders (closeSideOf position) = some current →
      current.stopPrice = some ex →
      ¬ ((closeSideOf position = .SELL ∧
            ex + max (1/1000000000) cfg.priceTick ≤ rawStop) ∨
         (closeSideOf position = .BUY ∧
            rawStop ≤ ex - max (1/1000000000) cfg.priceTick)) →
      ensureProtectiveStop cfg openOrders position lastPrice rawStop placeOk
        = []) ∧
    (∀ current ex,
      findCurrentStop openOrders (closeSideOf position) = some current →
      current.stopPrice = some ex →
      ¬ |position.positionAmt| < EPS → hasEntryPrice position = true →
      ((closeSideOf position = .SELL ∧
          rawStop ≤ lastPrice - max (1/1000000000) cfg.priceTick ∧
          ex + max (1/1000000000) cfg.priceTick ≤ rawStop) ∨
       (closeSideOf position = .BUY ∧
          lastPrice + max (1/1000000000) cfg.priceTick ≤ rawStop ∧
          rawStop ≤ ex - max (1/1000000000) cfg.priceTick)) →
      Effect.cancelOrderE current.orderId ∈
        ensureProtectiveStop cfg openOrders position lastPrice rawStop placeOk ∧
      (placeOk = false →
        Effect.placeStopE (closeSideOf position) ex |position.positionAmt| ∈
          ensureProtectiveStop cfg openOrders position lastPrice rawStop
            placeOk)) := by
  have htick : 0 < max (1/1000000000 : ℚ) cfg.priceTick :=
    lt_of_lt_of_le (by norm_num) (le_max_left _ _)
  refine ⟨?_, ?_, ?_⟩
  · intro s p q hmem
    by_cases h1 : |position.positionAmt| < EPS
    · simp [ensureProtectiveStop, h1] at hmem
    by_cases h2 : hasEntryPrice position = true
    · rw [ensureProtectiveStop, if_neg h1, h2] at hmem
      simp only [Bool.not_true, Bool.false_eq_true, if_false] at hmem
      by_cases h3 : (closeSideOf position = .SELL ∧
          ¬(rawStop ≤ lastPrice - max (1/1000000000) cfg.priceTick)) ∨
          (closeSideOf position = .BUY ∧
            ¬(lastPrice + max (1/1000000000) cfg.priceTick ≤ rawStop))
      · rw [if_pos h3] at hmem
        simp at hmem
      rw [if_neg h3] at hmem
      push_neg at h3
      rcases hfind : findCurrentStop openOrders (closeSideOf position)
        with _ | current
      · simp only [hfind, List.mem_singleton] at hmem
        obtain ⟨hs, hp, hq⟩ := Effect.placeStopE.inj hmem
        constructor
        · intro hS
          rw [hp]
          exact h3.1 (hs.symm.trans hS)
        · intro hB
          rw [hp]
          exact h3.2 (hs.symm.trans hB)
      · simp only [hfind] at hmem
        rcases hsp : current.stopPrice with _ | ex
        · simp [hsp] at hmem
        simp only [hsp] at hmem
        by_cases himp : (closeSideOf position = .SELL ∧
            ex + max (1/1000000000) cfg.priceTick ≤ rawStop) ∨
            (closeSideOf position = .BUY ∧
              rawStop ≤ ex - max (1/1000000000) cfg.priceTick)
        · rw [if_pos himp] at hmem
          have hval := tryReplaceStop_place_valid (closeSideOf position) current
            rawStop lastPrice |position.positionAmt|
            (max (1/1000000000) cfg.priceTick) placeOk htick
            ⟨h3.1, h3.2⟩ ?hex s p q hmem
          case hex =>
            intro ex2 hsp2
            rw [hsp] at hsp2
            obtain rfl := Option.some.inj hsp2
            constructor
            · intro hS
              rcases himp with ⟨-, h⟩ | ⟨hcs, -⟩
              · exact h
              · exact absurd (hS.symm.trans hcs) (by simp)
            · intro hB
              rcases himp with ⟨hcs, -⟩ | ⟨-, h⟩
              · exact absurd (hB.symm.trans hcs) (by simp)
              · exact h
          obtain ⟨hs, -, hS, hB⟩ := hval
          exact ⟨fun h => hS (hs ▸ h), fun h => hB (hs ▸ h)⟩
        · rw [if_neg himp] at hmem
          simp at hmem
    · have h2f : hasEntryPrice position = false := Bool.eq_false_iff.mpr h2
      rw [ensureProtectiveStop, if_neg h1, h2f] at hmem
      simp at hmem
  · intro current ex hfind hsp hnotimp
    by_cases h1 : |position.positionAmt| < EPS
    · simp [ensureProtectiveStop, h1]
    by_cases h2 : hasEntryPrice position = true
    · rw [ensureProtectiveStop, if_neg h1, h2]
      simp only [Bool.not_true, Bool.false_eq_true, if_false]
      by_cases h3 : (closeSideOf position = .SELL ∧
          ¬(rawStop ≤ lastPrice - max (1/1000000000) cfg.priceTick)) ∨
          (closeSideOf position = .BUY ∧
            ¬(lastPrice + max (1/1000000000) cfg.priceTick ≤ rawStop))
      · rw [if_pos h3]
      rw [if_neg h3]
      simp only [hfind, hsp]
      rw [if_neg hnotimp]
    · have h2f : hasEntryPrice position = false := Bool.eq_false_iff.mpr h2
      rw [ensureProtectiveStop, if_neg h1, h2f]
      simp
  · intro current ex hfind hsp h1 h2 himp
    have hval : ¬ ((closeSideOf position = .SELL ∧
        ¬(rawStop ≤ lastPrice - max (1/1000000000) cfg.priceTick)) ∨
        (closeSideOf position = .BUY ∧
          ¬(lastPrice + max (1/1000000000) cfg.priceTick ≤ rawStop))) := by
      rcases himp with ⟨hcs, hv, -⟩ | ⟨hcs, hv, -⟩ <;>
        · rintro (⟨hcs2, hnv⟩ | ⟨hcs2, hnv⟩)
          · first
              | exact hnv hv
              | exact absurd (hcs.symm.trans hcs2) (by simp)
          · first
              | exact hnv hv
              | exact absurd (hcs.symm.trans hcs2) (by simp)
    have himp2 : (closeSideOf position = .SELL ∧
        ex + max (1/1000000000) cfg.priceTick ≤ rawStop) ∨
        (closeSideOf position = .BUY ∧
          rawStop ≤ ex - max (1/1000000000) cfg.priceTick) := by
      rcases himp with ⟨hcs, -, ht⟩ | ⟨hcs, -, ht⟩
      · exact Or.inl ⟨hcs, ht⟩
      · exact Or.inr ⟨hcs, ht⟩
    have heq : ensureProtectiveStop cfg openOrders position lastPrice rawStop
        placeOk = tryReplaceStop (closeSideOf position) current rawStop
          lastPrice |position.positionAmt| placeOk := by
      rw [ensureProtectiveStop, if_neg h1, h2]
      simp only [Bool.not_true, Bool.false_eq_true, if_false]
      rw [if_neg hval]
      simp only [hfind, hsp]
      rw [if_pos himp2]
    have hinv : ¬ ((closeSideOf position = .SELL ∧ lastPrice < rawStop) ∨
        (closeSideOf position = .BUY ∧ rawStop < lastPrice)) := by
      rcases himp with ⟨hcs, hv, -⟩ | ⟨hcs, hv, -⟩ <;>
        · rintro (⟨hcs2, hlt⟩ | ⟨hcs2, hlt⟩)
          · first
              | (exact absurd hlt (not_lt.mpr (by linarith)))
              | exact absurd (hcs.symm.trans hcs2) (by simp)
          · first
              | (exact absurd hlt (not_lt.mpr (by linarith)))
              | exact absurd (hcs.symm.trans hcs2) (by simp)
    rw [heq]
    unfold tryReplaceStop
    rw [if_neg hinv]
    rcases placeOk with _ | _
    · simp only [Bool.false_eq_true, if_false]
      simp only [hsp]
      have hres : ¬ ((closeSideOf position = .SELL ∧ lastPrice ≤ ex) ∨
          (closeSideOf position = .BUY ∧ ex ≤ lastPrice)) := by
        rcases himp with ⟨hcs, hv, ht⟩ | ⟨hcs, hv, ht⟩ <;>
          · rintro (⟨hcs2, hle⟩ | ⟨hcs2, hle⟩)
            · first
                | linarith
                | exact absurd (hcs.symm.trans hcs2) (by simp)
            · first
                | linarith
                | exact absurd (hcs.symm.trans hcs2) (by simp)
      rw [if_neg hres]
      exact ⟨by simp, fun _ => by simp⟩
    · simp only [if_true]
      exact ⟨by simp, fun h => by cases h⟩

/-- C4 witness for the amended claim: with entry 100, last price 100, tick
0.1, current SELL stop at 98 and new valid stop 99 (tighter by ten ticks), a
failed replace cancels the old stop and re-places it at 98. -/
theorem ensureProtectiveStop_validity_and_replace_witness :
    Effect.cancelOrderE 5 ∈
      ensureProtectiveStop ⟨1/10, 1/1000, 1/10, 1, 0, 0, 1, 5/100, 1500, 1⟩
        [⟨5, .SELL, .STOP_MARKET, .NEW, 0, 1, some 98, false, 0⟩]
        ⟨1, 100, none, 0⟩ 100 99 false ∧
    Effect.placeStopE .SELL 98 1 ∈
      ensureProtectiveStop ⟨1/10, 1/1000, 1/10, 1, 0, 0, 1, 5/100, 1500, 1⟩
        [⟨5, .SELL, .STOP_MARKET, .NEW, 0, 1, some 98, false, 0⟩]
        ⟨1, 100, none, 0⟩ 100 99 false := by
  have hcs : closeSideOf (⟨1, 100, none, 0⟩ : PositionSnapshot) = .SELL := by
    norm_num [closeSideOf]
  have hfind : findCurrentStop
      [⟨5, .SELL, .STOP_MARKET, .NEW, 0, 1, some 98, false, 0⟩]
      (closeSideOf ⟨1, 100, none, 0⟩) =
      some ⟨5, .SELL, .STOP_MARKET, .NEW, 0, 1, some 98, false, 0⟩ := by
    rw [hcs]
    norm_num [findCurrentStop, hasPositiveStopPrice]
  have h := (ensureProtectiveStop_validity_and_replace
    ⟨1/10, 1/1000, 1/10, 1, 0, 0, 1, 5/100, 1500, 1⟩
    [⟨5, .SELL, .STOP_MARKET, .NEW, 0, 1, some 98, false, 0⟩]
    ⟨1, 100, none, 0⟩ 100 99 false).2.2
    ⟨5, .SELL, .STOP_MARKET, .NEW, 0, 1, some 98, false, 0⟩ 98 hfind rfl
    (by norm_num [EPS, abs_of_pos]) (by norm_num [hasEntryPrice])
    (Or.inl ⟨hcs, by norm_num [max_def], by norm_num [max_def]⟩)
  refine ⟨h.1, ?_⟩
  have h2 := h.2 rfl
  rw [hcs] at h2
  have habs : |(⟨1, 100, none, 0⟩ : PositionSnapshot).positionAmt| = 1 := by
    norm_num
  rw [habs] at h2
  exact h2

/-- C5 counterexample: long position 0.3, top-ten depth sums `buySum = 0.1`,
`sellSum = 0.6` — exactly 6× against the position, so "at least 6×" holds —
yet `handleImbalanceExit` declines (the code requires strictly more than 6×)
and the tick goes on quoting: it places the reduce-only close and a
protective stop, and sends no market close. -/
theorem imbalance_six_boundary_cex :
    EPS ≤ |(⟨3/10, 100, none, 0⟩ : PositionSnapshot).positionAmt| ∧
    (6 : ℚ) * (1/10) ≤ 6/10 ∧
    handleImbalanceExit ⟨1/10, 1/1000, 1/10, 1, 1/10, 1/10, 1, 5/100, 1500, 1⟩
      ⟨some ⟨3/10, 100, none, 0⟩,
        some ⟨[(999/10, 1/10)], [(1001/10, 6/10)]⟩, some 100, [], [], true,
        true, none, none, 0⟩
      ⟨3/10, 100, none, 0⟩ (1/10) (6/10) = none ∧
    (tick ⟨1/10, 1/1000, 1/10, 1, 1/10, 1/10, 1, 5/100, 1500, 1⟩
      ⟨some ⟨3/10, 100, none, 0⟩,
        some ⟨[(999/10, 1/10)], [(1001/10, 6/10)]⟩, some 100, [], [], true,
        true, none, none, 0⟩
      ⟨0, .run, false, false, true, true, none⟩).2 =
      [Effect.placeOrderE .SELL (1001/10) (3/10) true none,
        Effect.placeStopE .SELL (290/3) (3/10)] := by
  refine ⟨by norm_num [EPS, abs_of_pos], by norm_num, ?_, ?_⟩
  · norm_num [handleImbalanceExit, EPS, abs_of_pos]
  · norm_num [tick, tickMain, startupReset, isReady, getTopPrices,
      computeDepthStats, sumTopLevels, getPosition, handleImbalanceExit,
      closeSideOf, priceDecimalsOf, decimalsAux, formatPriceToString,
      round_eq, syncOrders, suppressReprices, makeOrderPlan, defaultQtyStep,
      planEligible, lastEntryFor, ensureProtectiveStop, findCurrentStop,
      calcStopLossPrice, hasEntryPrice, refreshStopToQuoteIfOpen, checkRisk,
      shouldStopLoss, computePositionPnl, flushEffects, tryReplaceStop, EPS,
      hasPositiveStopPrice, statusHasFilled, statusHasCanceled, typeHasStop,
      abs_of_pos]
    decide

/-- C5 (amended): with a non-flat position, the depth-imbalance exit fires
exactly when the supporting side is empty or the opposing top-ten sum
strictly exceeds six times the supporting sum (`buySum = 0 ∨
6·buySum < sellSum` for a long; symmetrically for a short) — exactly 6× does
not fire it.  When it fires it flushes working orders and market-closes the
whole position on the closing side guarded by `maxCloseSlippagePct`, and the
tick performs no further action after it. -/
theorem imbalance_exit_strict_and_aborts_tick (cfg : EngineConfig)
    (st : EngineState) (inp : TickInput) (position : PositionSnapshot)
    (buySum sellSum : ℚ) :
    (EPS ≤ |position.positionAmt| → 0 < position.positionAmt →
      (buySum = 0 ∨ buySum * 6 < sellSum) →
      handleImbalanceExit cfg st position buySum sellSum =
        some (flushEffects st ++ [Effect.marketCloseE .SELL
          |position.positionAmt| (imbalanceExpectedPrice st .SELL)
          cfg.maxCloseSlippagePct])) ∧
    (EPS ≤ |position.positionAmt| → position.positionAmt < 0 →
      (sellSum = 0 ∨ sellSum * 6 < buySum) →
      handleImbalanceExit cfg st position buySum sellSum =
        some (flushEffects st ++ [Effect.marketCloseE .BUY
          |position.positionAmt| (imbalanceExpectedPrice st .BUY)
          cfg.maxCloseSlippagePct])) ∧
    (EPS ≤ |position.positionAmt| → 0 < position.positionAmt →
      buySum ≠ 0 → sellSum ≤ buySum * 6 →
      handleImbalanceExit cfg st position buySum sellSum = none) ∧
    (∀ ses effs depth topBid topAsk,
      inp.rlDecision = .run → isReady st = true →
      startupReset st inp.startupCancelFails = (true, ses) →
      inp.inject = none →
      st.depthSnapshot = some depth →
      getTopPrices (some depth) = (some topBid, some topAsk) →
      handleImbalanceExit cfg st (getPosition st)
        (computeDepthStats depth 10 3).buySum
        (computeDepthStats depth 10 3).sellSum = some effs →
      (tick cfg st inp).2 = ses ++ effs) := by
  refine ⟨?_, ?_, ?_, ?_⟩
  · intro hpos hlong htrig
    have hnl : ¬ |position.positionAmt| < EPS := not_lt.mpr hpos
    have hcond : ¬ (¬(0 < position.positionAmt ∧
        (buySum = 0 ∨ buySum * 6 < sellSum)) ∧
        ¬(position.positionAmt < 0 ∧ (sellSum = 0 ∨ sellSum * 6 < buySum))) :=
      fun h => h.1 ⟨hlong, htrig⟩
    simp only [handleImbalanceExit, if_neg hnl]
    rw [if_neg hcond]
    simp only [closeSideOf, if_pos hlong]
  · intro hpos hshort htrig
    have hnl : ¬ |position.positionAmt| < EPS := not_lt.mpr hpos
    have hcond : ¬ (¬(0 < position.positionAmt ∧
        (buySum = 0 ∨ buySum * 6 < sellSum)) ∧
        ¬(position.positionAmt < 0 ∧ (sellSum = 0 ∨ sellSum * 6 < buySum))) :=
      fun h => h.2 ⟨hshort, htrig⟩
    have hnpos : ¬ 0 < position.positionAmt := by linarith
    simp only [handleImbalanceExit, if_neg hnl]
    rw [if_neg hcond]
    simp only [closeSideOf, if_neg hnpos]
  · intro hpos hlong hb0 hle
    have hnl : ¬ |position.positionAmt| < EPS := not_lt.mpr hpos
    have hcond : ¬(0 < position.positionAmt ∧
        (buySum = 0 ∨ buySum * 6 < sellSum)) ∧
        ¬(position.positionAmt < 0 ∧ (sellSum = 0 ∨ sellSum * 6 < buySum)) := by
      constructor
      · rintro ⟨-, h0 | hlt⟩
        · exact hb0 h0
        · exact absurd hlt (not_lt.mpr hle)
      · rintro ⟨hneg, -⟩
        exact absurd hlong (not_lt.mpr (le_of_lt hneg))
    simp only [handleImbalanceExit, if_neg hnl]
    rw [if_pos hcond]
  · intro ses effs depth topBid topAsk hrl hready hstart hinj hdepth htops himb
    simp only [tick, hrl, hready, Bool.not_true, Bool.false_eq_true,
      if_false, hstart, hinj]
    simp only [tickMain, hdepth, htops, himb]

/-- C5 witness for the amended claim: the spec's scenario — long 0.3,
`buySum = 0.1`, `sellSum = 0.7` (7×) — market-closes SELL 0.3 with the top
bid as expected price. -/
theorem imbalance_exit_strict_and_aborts_tick_witness :
    handleImbalanceExit ⟨1/10, 1/1000, 1/10, 1, 1/10, 1/10, 1, 5/100, 1500, 1⟩
      ⟨some ⟨3/10, 100, none, 0⟩,
        some ⟨[(999/10, 1/10)], [(1001/10, 7/10)]⟩, some 100, [], [], true,
        true, none, none, 0⟩
      ⟨3/10, 100, none, 0⟩ (1/10) (7/10) =
      some [Effect.marketCloseE .SELL (3/10) (some (999/10)) (5/100)] := by
  have h := (imbalance_exit_strict_and_aborts_tick
    ⟨1/10, 1/1000, 1/10, 1, 1/10, 1/10, 1, 5/100, 1500, 1⟩
    ⟨some ⟨3/10, 100, none, 0⟩,
      some ⟨[(999/10, 1/10)], [(1001/10, 7/10)]⟩, some 100, [], [], true,
      true, none, none, 0⟩
    ⟨0, .run, false, false, true, true, none⟩
    ⟨3/10, 100, none, 0⟩ (1/10) (7/10)).1
    (by norm_num [EPS, abs_of_pos]) (by norm_num) (Or.inr (by norm_num))
  rw [h]
  norm_num [flushEffects, imbalanceExpectedPrice, getTopPrices, abs_of_pos]

/-- C6 counterexample: with the account, depth and orders feeds delivered
but the ticker feed never delivered, the engine already reports
`ready = true` (the snapshot `ready` flag is `isReady`) and its tick is not
a no-op — it places an entry quote. -/
theorem ready_without_ticker_cex :
    (⟨some ⟨0, 0, none, 0⟩, some ⟨[(999/10, 3)], [(1001/10, 1)]⟩, none, [],
        [], true, true, none, none, 0⟩ : EngineState).tickerSnapshot = none ∧
    isReady ⟨some ⟨0, 0, none, 0⟩, some ⟨[(999/10, 3)], [(1001/10, 1)]⟩,
        none, [], [], true, true, none, none, 0⟩ = true ∧
    (tick ⟨1/10, 1/1000, 1/10, 1, 1/10, 1/10, 1, 5/100, 1500, 1⟩
      ⟨some ⟨0, 0, none, 0⟩, some ⟨[(999/10, 3)], [(1001/10, 1)]⟩, none, [],
        [], true, true, none, none, 0⟩
      ⟨0, .run, false, false, true, true, none⟩).2 =
      [Effect.placeOrderE .BUY (998/10) (1/10) false none] := by
  refine ⟨rfl, rfl, ?_⟩
  norm_num [tick, tickMain, startupReset, isReady, getTopPrices,
    computeDepthStats, sumTopLevels, getPosition, handleImbalanceExit,
    closeSideOf, priceDecimalsOf, decimalsAux, formatPriceToString, round_eq,
    syncOrders, suppressReprices, makeOrderPlan, defaultQtyStep, planEligible,
    lastEntryFor, ensureProtectiveStop, findCurrentStop, calcStopLossPrice,
    hasEntryPrice, refreshStopToQuoteIfOpen, checkRisk, shouldStopLoss,
    computePositionPnl, flushEffects, EPS, hasPositiveStopPrice,
    statusHasFilled, statusHasCanceled, typeHasStop]

/-- C6 (amended): the engine's `ready` flag is exactly "account and depth
snapshots present" — two feeds, not four — and the tick issues no exchange
request while not ready, nor before the first orders snapshot has arrived
(startup-reset gate); the ticker feed is not required for either. -/
theorem ready_two_feeds_and_tick_noop (cfg : EngineConfig) (st : EngineState)
    (inp : TickInput) :
    isReady st = (st.accountSnapshot.isSome && st.depthSnapshot.isSome) ∧
    (isReady st = false → (tick cfg st inp).2 = []) ∧
    (st.initialOrderSnapshotReady = false → st.initialOrderResetDone = false →
      (tick cfg st inp).2 = []) := by
  obtain ⟨now, rl, be, scf, po, rpo, inj⟩ := inp
  refine ⟨rfl, ?_, ?_⟩
  · intro h
    cases rl <;> simp [tick, h]
  · intro h1 h2
    cases rl <;> cases hr : isReady st <;>
      simp [tick, startupReset, h1, h2, hr]

/-- C6 witness for the amended claim: a state with only the depth snapshot
present is not ready and its tick is a no-op; so is a ready state whose
first orders snapshot has not arrived. -/
theorem ready_two_feeds_and_tick_noop_witness :
    (tick ⟨1/10, 1/1000, 1/10, 1, 0, 0, 1, 5/100, 1500, 1⟩
      ⟨none, some ⟨[(999/10, 3)], [(1001/10, 1)]⟩, some 100, [], [], true,
        true, none, none, 0⟩
      ⟨0, .run, false, false, true, true, none⟩).2 = [] ∧
    (tick ⟨1/10, 1/1000, 1/10, 1, 0, 0, 1, 5/100, 1500, 1⟩
      ⟨some ⟨0, 0, none, 0⟩, some ⟨[(999/10, 3)], [(1001/10, 1)]⟩, none, [],
        [], false, false, none, none, 0⟩
      ⟨0, .run, false, false, true, true, none⟩).2 = [] := by
  constructor
  · exact (ready_two_feeds_and_tick_noop _ _ _).2.1 rfl
  · exact (ready_two_feeds_and_tick_noop _ _ _).2.2 rfl rfl

/-- C7 counterexample: existing non-reduce-only BUY resting at 100 for
quantity 1, placed 500 ms ago (dwell window 1500 ms), new desired BUY at
100.1 for quantity 5.  Suppression pins the desired price to 100, but the
plan still cancels the resting order and places anew, because the amounts
differ by more than the step — the claim's "no cancel and no place for that
side" fails. -/
theorem reprice_suppression_qty_mismatch_cex :
    suppressReprices ⟨1/10, 1/1000, 1/10, 1, 0, 0, 1, 5/100, 1500, 1⟩
      ⟨some ⟨0, 0, none, 0⟩, some ⟨[(100, 1)], [(1002/10, 1)]⟩, none,
        [⟨11, .BUY, .LIMIT, .NEW, 100, 1, some 0, false, 0⟩], [], true, true,
        some (100, 500), none, 0⟩
      [⟨11, .BUY, .LIMIT, .NEW, 100, 1, some 0, false, 0⟩] 1000
      [⟨.BUY, 1001/10, 5, false⟩] = [⟨.BUY, 100, 5, false⟩] ∧
    makeOrderPlan defaultQtyStep
      [⟨11, .BUY, .LIMIT, .NEW, 100, 1, some 0, false, 0⟩]
      [⟨.BUY, 100, 5, false⟩] =
      ([⟨11, .BUY, .LIMIT, .NEW, 100, 1, some 0, false, 0⟩],
        [⟨.BUY, 100, 5, false⟩]) ∧
    syncOrders ⟨1/10, 1/1000, 1/10, 1, 0, 0, 1, 5/100, 1500, 1⟩
      ⟨some ⟨0, 0, none, 0⟩, some ⟨[(100, 1)], [(1002/10, 1)]⟩, none,
        [⟨11, .BUY, .LIMIT, .NEW, 100, 1, some 0, false, 0⟩], [], true, true,
        some (100, 500), none, 0⟩
      1000 [⟨.BUY, 1001/10, 5, false⟩] (some (1002/10)) true =
      [Effect.cancelOrderE 11, Effect.placeOrderE .BUY 100 5 false none,
        Effect.placeStopE .SELL (1002/10) 5] := by
  refine ⟨?_, ?_, ?_⟩
  · norm_num [suppressReprices, lastEntryFor]
  · norm_num [makeOrderPlan, defaultQtyStep]
  · norm_num [syncOrders, suppressReprices, lastEntryFor, makeOrderPlan,
      defaultQtyStep, planEligible, statusHasFilled, statusHasCanceled,
      typeHasStop, hasPositiveStopPrice, EPS]

/-- C7 (amended): for an entry-side desired order with a single live
non-reduce-only resting order on the same side, when the price moved fewer
than `minRepriceTicks` ticks or the last entry placement on that side is
within the dwell window, the desired order is pinned to the resting price;
provided additionally the desired amount matches the resting amount within
the plan's quantity step, the subsequent plan yields no cancel and no place
for that side. -/
theorem syncOrders_suppression_no_churn (cfg : EngineConfig)
    (st : EngineState) (now : ℚ) (t : DesiredOrder) (e : AsterOrder)
    (topAsk : Option ℚ) (placeOk : Bool)
    (hopen : st.openOrders = [e]) (hpend : st.pendingCancel = [])
    (hside : e.side = t.side) (hero : e.reduceOnly = false)
    (htro : t.reduceOnly = false) (helig : planEligible e = true)
    (hsupp : |t.price - e.price| / cfg.priceTick < cfg.minRepriceTicks ∨
      now - ((lastEntryFor st t.side).map Prod.snd).getD 0 <
        cfg.repriceDwellMs)
    (hqty : |e.origQty - t.amount| ≤ defaultQtyStep) :
    suppressReprices cfg st [e] now [t] =
      [⟨t.side, e.price, t.amount, false⟩] ∧
    makeOrderPlan defaultQtyStep [e] [⟨t.side, e.price, t.amount, false⟩] =
      ([], []) ∧
    syncOrders cfg st now [t] topAsk placeOk = [] := by
  have hfind : List.find? (fun o => o.side == t.side && !o.reduceOnly) [e]
      = some e := by
    simp [List.find?, hside, hero]
  have hsup : suppressReprices cfg st [e] now [t] =
      [⟨t.side, e.price, t.amount, false⟩] := by
    simp only [suppressReprices, List.map_cons, List.map_nil, htro,
      Bool.false_eq_true, if_false, hfind]
    rw [if_pos hsupp]
  have hkey : (e.side == t.side && e.price == e.price &&
      e.reduceOnly == false &&
      decide (|e.origQty - t.amount| ≤ defaultQtyStep)) = true := by
    simp [hside, hero, hqty]
  have hplan : makeOrderPlan defaultQtyStep [e]
      [⟨t.side, e.price, t.amount, false⟩] = ([], []) := by
    simp only [makeOrderPlan, List.foldl_cons, List.foldl_nil, List.find?,
      hkey]
    simp
  refine ⟨hsup, hplan, ?_⟩
  have havail : st.openOrders.filter
      (fun o => !st.pendingCancel.contains o.orderId) = [e] := by
    simp [hopen, hpend]
  have hef : List.filter planEligible [e] = [e] := by
    simp [List.filter, helig]
  simp only [syncOrders, havail, hef, hsup, hplan, List.map_nil,
    List.flatten_nil, List.append_nil]

/-- C7 witness for the amended claim: the spec's scenario — existing open
BUY at 100.0 (quantity 0.1) placed 500 ms ago, new desired BUY at 100.1,
tick 0.1, `minRepriceTicks = 1`, dwell 1500 ms — is pinned to the resting
price and the plan cancels and places nothing. -/
theorem syncOrders_suppression_no_churn_witness :
    syncOrders ⟨1/10, 1/1000, 1/10, 1, 0, 0, 1, 5/100, 1500, 1⟩
      ⟨some ⟨0, 0, none, 0⟩, some ⟨[(100, 1)], [(1002/10, 1)]⟩, none,
        [⟨11, .BUY, .LIMIT, .NEW, 100, 1/10, some 0, false, 0⟩], [], true,
        true, some (100, 500), none, 0⟩
      1000 [⟨.BUY, 1001/10, 1/10, false⟩] (some (1002/10)) true = [] := by
  refine (syncOrders_suppression_no_churn
    ⟨1/10, 1/1000, 1/10, 1, 0, 0, 1, 5/100, 1500, 1⟩
    ⟨some ⟨0, 0, none, 0⟩, some ⟨[(100, 1)], [(1002/10, 1)]⟩, none,
      [⟨11, .BUY, .LIMIT, .NEW, 100, 1/10, some 0, false, 0⟩], [], true,
      true, some (100, 500), none, 0⟩
    1000 ⟨.BUY, 1001/10, 1/10, false⟩
    ⟨11, .BUY, .LIMIT, .NEW, 100, 1/10, some 0, false, 0⟩
    (some (1002/10)) true rfl rfl rfl rfl rfl ?_ ?_ ?_).2.2
  · norm_num [planEligible, statusHasFilled, statusHasCanceled, typeHasStop,
      hasPositiveStopPrice]
  · right
    norm_num [lastEntryFor]
  · norm_num [defaultQtyStep, abs_of_pos]

/-- C8: no error raised inside the tick propagates out of it — the tick
always terminates normally.  When the error is a RateLimit error the tick
flags the controller, runs `enforceRateLimitStop` — which, with a non-flat
position, flushes the working orders and market-closes the whole position on
the closing side guarded by `maxCloseSlippagePct` — and aborts the rest of
the cycle; a non-rate-limit error only produces an error log and ends the
cycle. -/
theorem tick_error_handling (cfg : EngineConfig) (st : EngineState)
    (inp : TickInput) :
    (tick cfg st inp).1 = .normal ∧
    (∀ n ses, inp.rlDecision = .run → isReady st = true →
      startupReset st inp.startupCancelFails = (true, ses) →
      inp.inject = some (n, .rateLimit) →
      (tick cfg st inp).2 =
        (ses ++ tickMain cfg st inp).take n ++ [.registerRateLimitE] ++
          enforceRateLimitStop cfg st ++ [.logE "429"]) ∧
    (¬ |(getPosition st).positionAmt| < EPS →
      enforceRateLimitStop cfg st = flushEffects st ++
        [.marketCloseE (closeSideOf (getPosition st))
          |(getPosition st).positionAmt|
          (rateLimitCloseExpected cfg st (closeSideOf (getPosition st)))
          cfg.maxCloseSlippagePct]) ∧
    (∀ n ses, inp.rlDecision = .run → isReady st = true →
      startupReset st inp.startupCancelFails = (true, ses) →
      inp.inject = some (n, .other) →
      (tick cfg st inp).2 =
        (ses ++ tickMain cfg st inp).take n ++ [.logE "tick-error"]) := by
  refine ⟨?_, ?_, ?_, ?_⟩
  · obtain ⟨now, rl, be, scf, po, rpo, inj⟩ := inp
    cases rl
    · cases hr : isReady st
      · simp [tick, hr]
      · rcases hsr : startupReset st scf with ⟨p, ses⟩
        cases p
        · simp [tick, hr, hsr]
        · rcases inj with _ | ⟨n, k⟩
          · simp [tick, hr, hsr]
          · cases k <;> simp [tick, hr, hsr]
    · simp [tick]
    · simp [tick]
  · intro n ses hrl hready hstart hinj
    simp only [tick, hrl, hready, Bool.not_true, Bool.false_eq_true,
      if_false, hstart, hinj]
  · intro hpos
    simp only [enforceRateLimitStop, if_neg hpos]
  · intro n ses hrl hready hstart hinj
    simp only [tick, hrl, hready, Bool.not_true, Bool.false_eq_true,
      if_false, hstart, hinj]

/-- C8 witness: a rate-limit error injected at the start of the body, with a
long 0.5 position and one resting order, yields registering the rate limit,
cancelling the resting order, a guarded market close SELL 0.5 at the top ask
and the warn log — and a normal return. -/
theorem tick_error_handling_witness :
    (tick ⟨1/10, 1/1000, 1/10, 1, 0, 0, 1, 5/100, 1500, 1⟩
      ⟨some ⟨1/2, 100, none, 0⟩, some ⟨[(999/10, 1)], [(1001/10, 1)]⟩, none,
        [⟨11, .BUY, .LIMIT, .NEW, 100, 1/10, some 0, false, 0⟩], [], true,
        true, none, none, 0⟩
      ⟨0, .run, false, false, true, true, some (0, .rateLimit)⟩).1 =
      .normal ∧
    (tick ⟨1/10, 1/1000, 1/10, 1, 0, 0, 1, 5/100, 1500, 1⟩
      ⟨some ⟨1/2, 100, none, 0⟩, some ⟨[(999/10, 1)], [(1001/10, 1)]⟩, none,
        [⟨11, .BUY, .LIMIT, .NEW, 100, 1/10, some 0, false, 0⟩], [], true,
        true, none, none, 0⟩
      ⟨0, .run, false, false, true, true, some (0, .rateLimit)⟩).2 =
      [Effect.registerRateLimitE, Effect.cancelOrderE 11,
        Effect.marketCloseE .SELL (1/2) (some (1001/10)) (5/100),
        Effect.logE "429"] := by
  have h := tick_error_handling
    ⟨1/10, 1/1000, 1/10, 1, 0, 0, 1, 5/100, 1500, 1⟩
    ⟨some ⟨1/2, 100, none, 0⟩, some ⟨[(999/10, 1)], [(1001/10, 1)]⟩, none,
      [⟨11, .BUY, .LIMIT, .NEW, 100, 1/10, some 0, false, 0⟩], [], true,
      true, none, none, 0⟩
    ⟨0, .run, false, false, true, true, some (0, .rateLimit)⟩
  refine ⟨h.1, ?_⟩
  rw [h.2.1 0 [] rfl rfl (by norm_num [startupReset]) rfl]
  rw [h.2.2.1 (by norm_num [getPosition, EPS, abs_of_pos])]
  norm_num [flushEffects, getPosition, closeSideOf, rateLimitCloseExpected,
    getTopPrices, priceDecimalsOf, decimalsAux, formatPriceToString,
    round_eq, abs_of_pos]

/-- C9: `computePositionPnl` uses a side-aware price — the best bid for a
long position, the best ask for a short position — except that when both
supplied prices are present and equal that common price is used; the result
is `(price − entryPrice) · |positionAmt|` for a long and
`(entryPrice − price) · |positionAmt|` for a short. -/
theorem computePositionPnl_side_aware (position : PositionSnapshot)
    (bestBid bestAsk : Option ℚ) :
    (∀ b, 0 < position.positionAmt → bestBid = some b →
      computePositionPnl position bestBid bestAsk =
        (b - position.entryPrice) * |position.positionAmt|) ∧
    (∀ a, position.positionAmt < 0 → bestAsk = some a →
      computePositionPnl position bestBid bestAsk =
        (position.entryPrice - a) * |position.positionAmt|) ∧
    (∀ p, bestBid = some p → bestAsk = some p →
      computePositionPnl position bestBid bestAsk =
        if 0 < position.positionAmt then
          (p - position.entryPrice) * |position.positionAmt|
        else (position.entryPrice - p) * |position.positionAmt|) := by
  refine ⟨?_, ?_, ?_⟩
  · intro b hpos hb
    subst hb
    unfold computePositionPnl
    by_cases heq : (some b : Option ℚ).isSome ∧ bestAsk.isSome ∧ some b = bestAsk
    · rcases heq with ⟨-, -, hba⟩
      simp [← hba, hpos]
    · simp [heq, hpos]
  · intro a hneg ha
    subst ha
    have hnpos : ¬ 0 < position.positionAmt := by linarith
    unfold computePositionPnl
    by_cases heq : bestBid.isSome ∧ (some a : Option ℚ).isSome ∧ bestBid = some a
    · rcases heq with ⟨-, -, hba⟩
      simp [hba, hnpos]
    · simp [heq, hnpos]
      rcases bestBid with _ | b
      · simp
      · by_cases hb : b = a <;> simp [hb]
  · intro p hb ha
    subst hb; subst ha
    unfold computePositionPnl
    by_cases hpos : 0 < position.positionAmt <;> simp [hpos]

/-- C9 witness: a long position of 2 at entry 100 with bid 110 and ask 120
has PnL 20; a short position of 2 at entry 100 with bid 90 and ask 95 has
PnL 10; equal prices use the common price. -/
theorem computePositionPnl_side_aware_witness :
    computePositionPnl ⟨2, 100, none, 0⟩ (some 110) (some 120) = 20 ∧
    computePositionPnl ⟨-2, 100, none, 0⟩ (some 90) (some 95) = 10 ∧
    computePositionPnl ⟨2, 100, none, 0⟩ (some 105) (some 105) = 10 := by
  refine ⟨?_, ?_, ?_⟩
  · have h := (computePositionPnl_side_aware ⟨2, 100, none, 0⟩
      (some 110) (some 120)).1 110 (by norm_num) rfl
    rw [h]; norm_num
  · have h := (computePositionPnl_side_aware ⟨-2, 100, none, 0⟩
      (some 90) (some 95)).2.1 95 (by norm_num) rfl
    rw [h]; norm_num
  · have h := (computePositionPnl_side_aware ⟨2, 100, none, 0⟩
      (some 105) (some 105)).2.2 105 rfl rfl
    rw [h]; norm_num

/-- C10: `computePositionPnl` is total and returns exactly 0 whenever the
price selected for the position's side is missing: a long position with no
best bid yields 0, a non-long position (including `positionAmt = 0`, which
takes the ask branch) with no best ask yields 0. -/
theorem computePositionPnl_total_zero_on_missing (position : PositionSnapshot)
    (bestBid bestAsk : Option ℚ) :
    (0 < position.positionAmt → bestBid = none →
      computePositionPnl position bestBid bestAsk = 0) ∧
    (¬ 0 < position.positionAmt → bestAsk = none →
      computePositionPnl position bestBid bestAsk = 0) ∧
    (position.positionAmt = 0 → bestAsk = none →
      computePositionPnl position bestBid bestAsk = 0) := by
  have key : ∀ (hb : Option ℚ) (hpos : ¬ 0 < position.positionAmt),
      computePositionPnl position hb none = 0 := by
    intro hb hpos
    unfold computePositionPnl
    simp [hpos]
  refine ⟨?_, ?_, ?_⟩
  · intro hpos hb
    subst hb
    unfold computePositionPnl
    simp [hpos]
  · intro hpos ha
    subst ha
    exact key bestBid hpos
  · intro hz ha
    subst ha
    exact key bestBid (by rw [hz]; exact lt_irrefl 0)

/-- C10 witness: a long position with a missing bid, and a flat position
with a missing ask, both evaluate to 0. -/
theorem computePositionPnl_total_zero_on_missing_witness :
    computePositionPnl ⟨2, 100, none, 0⟩ none (some 120) = 0 ∧
    computePositionPnl ⟨0, 100, none, 0⟩ (some 90) none = 0 := by
  constructor
  · exact (computePositionPnl_total_zero_on_missing ⟨2, 100, none, 0⟩
      none (some 120)).1 (by norm_num) rfl
  · exact (computePositionPnl_total_zero_on_missing ⟨0, 100, none, 0⟩
      (some 90) none).2.2 rfl rfl

/-- C3: with a flat position (`|positionAmt| < 1e-5`),
`reconcileOrphanedPosition` returns `tookAction = false` and sends no order,
regardless of prices, open orders, options, the ioc flag, or the outcome of
any placement. -/
theorem reconcile_flat_no_action (position : PositionSnapshot)
    (openOrders : List AsterOrder) (prices : ReconcilePrices)
    (opts : ReconcileOptions) (ioc placeOk : Bool)
    (hflat : |position.positionAmt| < EPS) :
    reconcileOrphanedPosition position openOrders prices opts ioc placeOk =
      ⟨false, none⟩ := by
  unfold reconcileOrphanedPosition
  simp [hflat]

/-- Helper: when `reconcileOrphanedPosition` reports `tookAction = true`
(with a successful placement), the position was not flat-protected and the
sent request is the reduce-only LIMIT close at the constructed price. -/
theorem reconcile_action_spec (position : PositionSnapshot)
    (openOrders : List AsterOrder) (prices : ReconcilePrices)
    (opts : ReconcileOptions) (ioc : Bool)
    (hpos : ¬ |position.positionAmt| < EPS)
    (h : (reconcileOrphanedPosition position openOrders prices opts ioc
      true).tookAction = true) :
    hasClosingProtection openOrders (closeSideOf position) = false ∧
    ∃ p, buildClosePrice (closeSideOf position) prices opts.priceTick = some p ∧
      (reconcileOrphanedPosition position openOrders prices opts ioc
        true).sentOrder =
        some ⟨closeSideOf position, .LIMIT, p, |position.positionAmt|, true,
          if ioc || opts.strictLimitOnly then some "IOC" else none⟩ := by
  by_cases hprot : hasClosingProtection openOrders (closeSideOf position) = true
  · simp [reconcileOrphanedPosition, if_neg hpos, hprot] at h
  · have hprot' : hasClosingProtection openOrders (closeSideOf position) = false :=
      Bool.eq_false_iff.mpr hprot
    refine ⟨hprot', ?_⟩
    rcases hbp : buildClosePrice (closeSideOf position) prices opts.priceTick
      with _ | p
    · simp [reconcileOrphanedPosition, if_neg hpos, hprot', hbp] at h
    · refine ⟨p, rfl, ?_⟩
      simp [reconcileOrphanedPosition, if_neg hpos, hprot', hbp]

/-- C1 counterexample: a long position of 1 with a single closing-side
(TRAILING_STOP_MARKET, stop price 0) open order.  The order is stop-like in
the spec's sense (its type is in the STOP family), so the claim requires
`tookAction = false` and no order; the code does not recognise it as
protection (it matches only the exact type STOP_MARKET) and places a close
order with `tookAction = true`. -/
theorem reconcile_speclike_protection_cex :
    EPS ≤ |(⟨1, 100, none, 0⟩ : PositionSnapshot).positionAmt| ∧
    (⟨1, .SELL, .TRAILING_STOP_MARKET, .NEW, 0, 1, some 0, false, 0⟩ :
        AsterOrder).side = closeSideOf ⟨1, 100, none, 0⟩ ∧
    specStopLike
      ⟨1, .SELL, .TRAILING_STOP_MARKET, .NEW, 0, 1, some 0, false, 0⟩ = true ∧
    reconcileOrphanedPosition ⟨1, 100, none, 0⟩
      [⟨1, .SELL, .TRAILING_STOP_MARKET, .NEW, 0, 1, some 0, false, 0⟩]
      ⟨none, some 100, none⟩ ⟨1/10, 1/1000, false, 5/100⟩ false true =
      ⟨true, some ⟨.SELL, .LIMIT, 100, 1, true, none⟩⟩ := by
  refine ⟨by norm_num [EPS], by norm_num [closeSideOf], ?_, ?_⟩
  · norm_num [specStopLike, typeHasStop, hasPositiveStopPrice]
  · norm_num [reconcileOrphanedPosition, hasClosingProtection,
      hasPositiveStopPrice, closeSideOf, buildClosePrice, priceDecimalsOf,
      decimalsAux, formatPriceToString, round_eq, EPS]
    decide

/-- C1 (amended): with a non-flat position, protection as the code tests it
(a closing-side order that is reduce-only, of type exactly STOP_MARKET, or
with positive stop price) yields `tookAction = false` and no order; and the
call is idempotent — whenever a first call succeeds with `tookAction = true`,
any second call whose open-order list contains the order the first call
placed returns `tookAction = false` and sends nothing. -/
theorem reconcile_protection_no_action_and_idempotent
    (position : PositionSnapshot) (openOrders : List AsterOrder)
    (prices : ReconcilePrices) (opts : ReconcileOptions) (ioc : Bool)
    (hpos : EPS ≤ |position.positionAmt|) :
    (∀ placeOk, hasClosingProtection openOrders (closeSideOf position) = true →
      reconcileOrphanedPosition position openOrders prices opts ioc placeOk =
        ⟨false, none⟩) ∧
    (∀ req oid t placeOk2 (openOrders2 : List AsterOrder),
      (reconcileOrphanedPosition position openOrders prices opts ioc
        true).tookAction = true →
      (reconcileOrphanedPosition position openOrders prices opts ioc
        true).sentOrder = some req →
      orderFromRequest req oid t ∈ openOrders2 →
      reconcileOrphanedPosition position openOrders2 prices opts ioc placeOk2 =
        ⟨false, none⟩) := by
  have hnl : ¬ |position.positionAmt| < EPS := not_lt.mpr hpos
  constructor
  · intro placeOk hprot
    simp [reconcileOrphanedPosition, if_neg hnl, hprot]
  · intro req oid t placeOk2 openOrders2 hact hsent hmem
    obtain ⟨hprot, p, hbp, hsent'⟩ :=
      reconcile_action_spec position openOrders prices opts ioc hnl hact
    rw [hsent'] at hsent
    have hreq := (Option.some.inj hsent).symm
    have hprot2 : hasClosingProtection openOrders2 (closeSideOf position) = true := by
      refine List.any_eq_true.mpr ⟨orderFromRequest req oid t, hmem, ?_⟩
      rw [hreq]
      simp [orderFromRequest]
    simp [reconcileOrphanedPosition, if_neg hnl, hprot2]

/-- C1 witness for the amended claim: a short position of 0.2 with the
reduce-only BUY protection of the repository's reconciler test is left
alone; and a first successful call on a long 0.5 position is followed by a
no-action second call that sees the placed order. -/
theorem reconcile_protection_no_action_and_idempotent_witness :
    reconcileOrphanedPosition ⟨-2/10, 100, some 100, 0⟩
      [⟨2, .BUY, .LIMIT, .NEW, 999/10, 2/10, some 0, true, 0⟩]
      ⟨some (999/10), some (1001/10), some 100⟩ ⟨1/10, 1/1000, false, 5/100⟩
      false true = ⟨false, none⟩ ∧
    reconcileOrphanedPosition ⟨1/2, 100, some 100, 0⟩
      [orderFromRequest ⟨.SELL, .LIMIT, 1001/10, 1/2, true, some "IOC"⟩ 7 1]
      ⟨some (999/10), some (1001/10), some 100⟩ ⟨1/10, 1/1000, false, 5/100⟩
      true false = ⟨false, none⟩ := by
  constructor
  · refine (reconcile_protection_no_action_and_idempotent
      ⟨-2/10, 100, some 100, 0⟩
      [⟨2, .BUY, .LIMIT, .NEW, 999/10, 2/10, some 0, true, 0⟩]
      ⟨some (999/10), some (1001/10), some 100⟩ ⟨1/10, 1/1000, false, 5/100⟩
      false (by norm_num [EPS, abs_neg, abs_of_pos])).1 true ?_
    norm_num [hasClosingProtection, closeSideOf]
  · refine (reconcile_protection_no_action_and_idempotent
      ⟨1/2, 100, some 100, 0⟩ []
      ⟨some (999/10), some (1001/10), some 100⟩ ⟨1/10, 1/1000, false, 5/100⟩
      true (by norm_num [EPS, abs_of_pos])).2
      ⟨.SELL, .LIMIT, 1001/10, 1/2, true, some "IOC"⟩ 7 1 false
      [orderFromRequest ⟨.SELL, .LIMIT, 1001/10, 1/2, true, some "IOC"⟩ 7 1]
      ?_ ?_ (List.mem_singleton.mpr rfl)
    · norm_num [reconcileOrphanedPosition, hasClosingProtection, closeSideOf,
        buildClosePrice, priceDecimalsOf, decimalsAux, formatPriceToString,
        round_eq, EPS, abs_of_pos]
    · norm_num [reconcileOrphanedPosition, hasClosingProtection, closeSideOf,
        buildClosePrice, priceDecimalsOf, decimalsAux, formatPriceToString,
        round_eq, EPS, abs_of_pos]

/-- C2: when `reconcileOrphanedPosition` acts (non-flat position, no
closing-side protection), the close price is the tick-formatted `topAsk` for
a SELL close and `topBid` for a BUY close, falling back to `lastPrice` when
the top-of-book price is absent; with neither available the call returns
`tookAction = false` and sends nothing.  The request sent is a reduce-only
LIMIT at that price with quantity `|positionAmt|` and time-in-force IOC
exactly when the caller passed `ioc` or `strictLimitOnly` is configured. -/
theorem reconcile_acting_close_order (position : PositionSnapshot)
    (openOrders : List AsterOrder) (prices : ReconcilePrices)
    (opts : ReconcileOptions) (ioc placeOk : Bool)
    (hpos : EPS ≤ |position.positionAmt|)
    (hprot : hasClosingProtection openOrders (closeSideOf position) = false) :
    (closeSideOf position = .SELL → prices.topAsk = none →
      prices.lastPrice = none →
      reconcileOrphanedPosition position openOrders prices opts ioc placeOk =
        ⟨false, none⟩) ∧
    (closeSideOf position = .BUY → prices.topBid = none →
      prices.lastPrice = none →
      reconcileOrphanedPosition position openOrders prices opts ioc placeOk =
        ⟨false, none⟩) ∧
    (∀ a, closeSideOf position = .SELL → prices.topAsk = some a →
      buildClosePrice (closeSideOf position) prices opts.priceTick =
        some (formatPriceToString a (priceDecimalsOf opts.priceTick))) ∧
    (∀ l, closeSideOf position = .SELL → prices.topAsk = none →
      prices.lastPrice = some l →
      buildClosePrice (closeSideOf position) prices opts.priceTick =
        some (formatPriceToString l (priceDecimalsOf opts.priceTick))) ∧
    (∀ b, closeSideOf position = .BUY → prices.topBid = some b →
      buildClosePrice (closeSideOf position) prices opts.priceTick =
        some (formatPriceToString b (priceDecimalsOf opts.priceTick))) ∧
    (∀ l, closeSideOf position = .BUY → prices.topBid = none →
      prices.lastPrice = some l →
      buildClosePrice (closeSideOf position) prices opts.priceTick =
        some (formatPriceToString l (priceDecimalsOf opts.priceTick))) ∧
    (∀ p, buildClosePrice (closeSideOf position) prices opts.priceTick = some p →
      (reconcileOrphanedPosition position openOrders prices opts ioc
          placeOk).tookAction = placeOk ∧
      (reconcileOrphanedPosition position openOrders prices opts ioc
          placeOk).sentOrder =
        some ⟨closeSideOf position, .LIMIT, p, |position.positionAmt|, true,
          if ioc || opts.strictLimitOnly then some "IOC" else none⟩) := by
  have hnl : ¬ |position.positionAmt| < EPS := not_lt.mpr hpos
  refine ⟨?_, ?_, ?_, ?_, ?_, ?_, ?_⟩
  · intro hside hask hlast
    have hbp : buildClosePrice (closeSideOf position) prices opts.priceTick
        = none := by
      rw [hside]; simp [buildClosePrice, hask, hlast]
    simp [reconcileOrphanedPosition, if_neg hnl, hprot, hbp]
  · intro hside hbid hlast
    have hbp : buildClosePrice (closeSideOf position) prices opts.priceTick
        = none := by
      rw [hside]; simp [buildClosePrice, hbid, hlast]
    simp [reconcileOrphanedPosition, if_neg hnl, hprot, hbp]
  · intro a hside hask
    rw [hside]; simp [buildClosePrice, hask]
  · intro l hside hask hlast
    rw [hside]; simp [buildClosePrice, hask, hlast]
  · intro b hside hbid
    rw [hside]; simp [buildClosePrice, hbid]
  · intro l hside hbid hlast
    rw [hside]; simp [buildClosePrice, hbid, hlast]
  · intro p hbp
    rcases placeOk with _ | _ <;>
      simp [reconcileOrphanedPosition, if_neg hnl, hprot, hbp]

/-- C2 witness: the repository test's scenario — long 0.5, bid 99.9, ask
100.1, tick 0.1, ioc — sends a reduce-only LIMIT SELL at 100.1 for 0.5 with
IOC and reports success. -/
theorem reconcile_acting_close_order_witness :
    (reconcileOrphanedPosition ⟨1/2, 100, some 100, 0⟩ []
      ⟨some (999/10), some (1001/10), some 100⟩ ⟨1/10, 1/1000, false, 5/100⟩
      true true).tookAction = true ∧
    (reconcileOrphanedPosition ⟨1/2, 100, some 100, 0⟩ []
      ⟨some (999/10), some (1001/10), some 100⟩ ⟨1/10, 1/1000, false, 5/100⟩
      true true).sentOrder =
      some ⟨.SELL, .LIMIT, 1001/10, 1/2, true, some "IOC"⟩ := by
  have hside : closeSideOf (⟨1/2, 100, some 100, 0⟩ : PositionSnapshot) =
      .SELL := by
    norm_num [closeSideOf]
  have hmain := reconcile_acting_close_order ⟨1/2, 100, some 100, 0⟩ []
    ⟨some (999/10), some (1001/10), some 100⟩ ⟨1/10, 1/1000, false, 5/100⟩
    true true (by norm_num [EPS, abs_of_pos]) rfl
  have hbp := hmain.2.2.1 (1001/10) hside rfl
  have hfmt : formatPriceToString (1001/10) (priceDecimalsOf (1/10)) =
      1001/10 := by
    norm_num [formatPriceToString, priceDecimalsOf, decimalsAux, round_eq]
  rw [hfmt] at hbp
  have hres := hmain.2.2.2.2.2.2 (1001/10) hbp
  refine ⟨hres.1, ?_⟩
  rw [hres.2, hside]
  norm_num [abs_of_pos]

/-- C3 witness: the flat position of the repository's reconciler test. -/
theorem reconcile_flat_no_action_witness :
    reconcileOrphanedPosition ⟨0, 0, none, 0⟩ []
      ⟨some 100, some 101, some (201/2)⟩ ⟨1/10, 1/1000, false, 5/100⟩
      false true = ⟨false, none⟩ :=
  reconcile_flat_no_action ⟨0, 0, none, 0⟩ []
    ⟨some 100, some 101, some (201/2)⟩ ⟨1/10, 1/1000, false, 5/100⟩
    false true (by norm_num [EPS])
